import Mathlib

/-!
Verification of the core of the libra-demo-server repository (`src/app.py`,
class `LibraLogMonitor`): the change-detection monitor (cursor `last_rowid`,
poll step `_check_for_new_records`, loop body of `_monitor_loop`), the
per-scale latest-state resolver (`get_latest_by_scale`), and the bounded
history queries (`get_recent_records`, `get_records_by_scale`).

The SQLite table `libra_logs` is embedded as a `List Rec`; a failing store
(`sqlite3.Error` on connect/execute) is the `none` case of `Option (List Rec)`.
SQL `ORDER BY` clauses are embedded as `List.insertionSort` under the
corresponding decidable relation, `LIMIT n` as `sqlLimit`, `MAX(rowid)` as a
fold with `max` (SQL `MAX` of an empty table is `NULL`, which the Python code
maps to `0`). Python `None` values are `Option.none`; a Python dict built by
insertion is an association list; a raised exception is `Except.error`.
-/

/-- One row of the `libra_logs` table (the columns selected by every query in
`app.py`: rowid, model, number, timestamp, action, amount, location,
ingredient, synced). `rowid` is the SQLite-assigned integer key, strictly
increasing in insertion order. -/
structure Rec where
  rowid : Nat
  model : String
  number : String
  timestamp : String
  action : String
  amount : Int
  location : String
  ingredient : String
  synced : Bool
deriving DecidableEq, Repr

/-- The module-level `scales` list of `app.py` (line 18). -/
def scales : List String := ["716710-0-0", "716710-1", "716710-2", "716710-3"]

/-- `ORDER BY rowid ASC` comparison. -/
def rowidLE (a b : Rec) : Prop := a.rowid ≤ b.rowid

instance : DecidableRel rowidLE := fun a b => Nat.decLe a.rowid b.rowid

instance : IsTotal Rec rowidLE := ⟨fun a b => Nat.le_total a.rowid b.rowid⟩

instance : IsTrans Rec rowidLE := ⟨fun _ _ _ h1 h2 => Nat.le_trans h1 h2⟩

/-- `ORDER BY rowid DESC` comparison. -/
def rowidGE (a b : Rec) : Prop := b.rowid ≤ a.rowid

instance : DecidableRel rowidGE := fun a b => Nat.decLe b.rowid a.rowid

instance : IsTotal Rec rowidGE := ⟨fun a b => Or.symm (Nat.le_total a.rowid b.rowid)⟩

instance : IsTrans Rec rowidGE := ⟨fun _ _ _ h1 h2 => Nat.le_trans h2 h1⟩

/-- The `CASE WHEN action IN ('Served', 'Refilled') THEN 0 ELSE 1 END` key of
the `get_latest_by_scale` query (app.py lines 185-189). -/
def priorityNum (r : Rec) : Nat :=
  if r.action = "Served" ∨ r.action = "Refilled" then 0 else 1

/-- The two-key `ORDER BY` of `get_latest_by_scale` (app.py lines 185-191):
priority class ascending, then `rowid DESC`. `latestLE a b` holds when `a`
sorts no later than `b`. -/
def latestLE (a b : Rec) : Prop :=
  priorityNum a < priorityNum b ∨ (priorityNum a = priorityNum b ∧ b.rowid ≤ a.rowid)

instance : DecidableRel latestLE := fun a b => by
  unfold latestLE; exact inferInstance

instance : IsTotal Rec latestLE := by
  refine ⟨fun a b => ?_⟩
  rcases Nat.lt_trichotomy (priorityNum a) (priorityNum b) with h | h | h
  · exact Or.inl (Or.inl h)
  · rcases Nat.le_total b.rowid a.rowid with h2 | h2
    · exact Or.inl (Or.inr ⟨h, h2⟩)
    · exact Or.inr (Or.inr ⟨h.symm, h2⟩)
  · exact Or.inr (Or.inl h)

instance : IsTrans Rec latestLE := by
  refine ⟨fun a b c h1 h2 => ?_⟩
  rcases h1 with h1 | ⟨h1e, h1r⟩
  · rcases h2 with h2 | ⟨h2e, _⟩
    · exact Or.inl (Nat.lt_trans h1 h2)
    · exact Or.inl (h2e ▸ h1)
  · rcases h2 with h2 | ⟨h2e, h2r⟩
    · exact Or.inl (h1e ▸ h2)
    · exact Or.inr ⟨h1e.trans h2e, Nat.le_trans h2r h1r⟩

/-- SQLite `LIMIT l`: a negative limit means "no limit", a non-negative one
truncates the result set (used with a Python `int` bound parameter). -/
def sqlLimit (l : Int) (xs : List Rec) : List Rec :=
  if l < 0 then xs else xs.take l.toNat

/-- `_get_last_rowid` (app.py lines 78-88): `SELECT MAX(rowid) FROM
libra_logs`, returning the fetched value when it is not `NULL`, `0` when it is
(empty table), and `0` on `sqlite3.Error` (the `none` store). -/
def getLastRowid (db : Option (List Rec)) : Nat :=
  match db with
  | none => 0
  | some rows => (rows.map Rec.rowid).foldr max 0

/-- `_check_for_new_records` (app.py lines 90-114): select the rows with
`rowid > last_rowid` ordered by `rowid ASC`; when the result is non-empty set
`self.last_rowid` to the last row's rowid and return the batch; when it is
empty, or on `sqlite3.Error`, return `[]` and leave the cursor unchanged.
Returns `(batch, new cursor)`. -/
def checkForNewRecords (db : Option (List Rec)) (lastRowid : Nat) : List Rec × Nat :=
  match db with
  | none => ([], lastRowid)
  | some rows =>
    match List.insertionSort rowidLE
      (List.filter (fun r => decide (lastRowid < r.rowid)) rows) with
    | [] => ([], lastRowid)
    | r :: rs => (r :: rs, ((r :: rs).getLast (List.cons_ne_nil r rs)).rowid)

/-- A registered callback (`add_callback`, app.py lines 51-53): it receives a
batch of records and may raise (`Except.error`). -/
def Callback : Type := List Rec → Except String Unit

/-- The dispatch `for` loop of `_monitor_loop` (app.py lines 66-70): each
callback is invoked with the same batch, in registration order; the
`try/except` around each call (lines 67-70) swallows a raised exception, so
the iteration always proceeds to the next callback. The trace records, per
callback, the batch it was passed and the outcome of its invocation. -/
def dispatchAll (cbs : List Callback) (recs : List Rec) :
    List (List Rec × Except String Unit) :=
  match cbs with
  | [] => []
  | cb :: rest => (recs, cb recs) :: dispatchAll rest recs

/-- Observable outcome of one iteration of the monitoring loop body
(app.py lines 62-72). -/
structure CycleOut where
  batch : List Rec
  cursor : Nat
  dispatch : List (List Rec × Except String Unit)
deriving Repr

/-- One iteration of the `while self.running` body (app.py lines 62-72):
fetch new records; only when the batch is non-empty (`if new_records:`)
dispatch it to every callback. -/
def monitorCycle (cbs : List Callback) (db : Option (List Rec)) (c : Nat) :
    CycleOut :=
  let p := checkForNewRecords db c
  { batch := p.1
    cursor := p.2
    dispatch := if p.1.isEmpty then [] else dispatchAll cbs p.1 }

/-- A run of the monitoring loop over successive snapshots of the store, one
snapshot per poll cycle, threading the cursor as `_monitor_loop` does. -/
def runMonitor (cbs : List Callback) (dbs : List (List Rec)) (c : Nat) :
    List CycleOut :=
  match dbs with
  | [] => []
  | db :: rest =>
    let out := monitorCycle cbs (some db) c
    out :: runMonitor cbs rest out.cursor

/-- The batches produced by a run. -/
def batches (run : List CycleOut) : List (List Rec) := run.map CycleOut.batch

/-- The batches handed to the observer at registration index `j` during a
run, read off the dispatch traces. -/
def deliveredTo (run : List CycleOut) (j : Nat) : List (List Rec) :=
  run.filterMap (fun out => (out.dispatch.get? j).map Prod.fst)

/-- Python runtime errors that the embedded code can raise. -/
inductive PyErr where
  | typeError
  | indexError
deriving DecidableEq, Repr

/-- A Python subscript: an `int` or a `str`. -/
inductive PyIdx where
  | int (n : Int)
  | str (s : String)

/-- Python list subscripting `xs[i]`: an `int` index (with negative-index
wraparound) yields an element or raises `IndexError`; any `str` index raises
`TypeError` (list indices must be integers). -/
def pyListGet (xs : List String) : PyIdx → Except PyErr String
  | PyIdx.int n =>
    let m : Int := if n < 0 then n + xs.length else n
    if h : 0 ≤ m ∧ m.toNat < xs.length then Except.ok (xs.get ⟨m.toNat, h.2⟩)
    else Except.error PyErr.indexError
  | PyIdx.str _ => Except.error PyErr.typeError

/-- The dict comprehension `{f'{scales[i]}': None for i in scales}` used as
the error fallback of both `get_records_by_scale` (app.py line 162) and
`get_latest_by_scale` (app.py line 200): `i` ranges over the *elements* of
`scales` (strings), and each key expression subscripts the list `scales` with
that string. -/
def scalesNoneDict (α : Type) : Except PyErr (List (String × Option α)) :=
  List.foldlM
    (fun acc i => do
      let k ← pyListGet scales (PyIdx.str i)
      pure (acc ++ [(k, (none : Option α))]))
    [] scales

/-- The per-scale query of `get_latest_by_scale` (app.py lines 181-196):
rows with `number = k`, ordered by `(priority class, rowid DESC)`, `LIMIT 1`,
then `fetchone()` — the head of the ordered result, or `None`. -/
def latestForKey (rows : List Rec) (k : String) : Option Rec :=
  (List.insertionSort latestLE
    (List.filter (fun r => decide (r.number = k)) rows)).head?

/-- `get_latest_by_scale` (app.py lines 164-200): on a readable store, a dict
mapping `"scale_i"` (for `i, scale_num in enumerate(scales, start=1)`) to the
per-scale latest record or `None`; on any exception (bare `except:`, line
199) the fallback dict comprehension, which itself raises. -/
def get_latest_by_scale (db : Option (List Rec)) :
    Except PyErr (List (String × Option Rec)) :=
  match db with
  | some rows =>
    Except.ok ((List.enumFrom 1 scales).map
      (fun p => ("scale_" ++ toString p.1, latestForKey rows p.2)))
  | none => scalesNoneDict Rec

/-- The per-scale query of `get_records_by_scale` (app.py lines 147-156):
rows with `number = k`, ordered by `rowid DESC`, `LIMIT limit`. -/
def recordsForKey (rows : List Rec) (k : String) (limit : Int) : List Rec :=
  sqlLimit limit
    (List.insertionSort rowidGE (List.filter (fun r => decide (r.number = k)) rows))

/-- `get_records_by_scale` (app.py lines 137-162): on a readable store, a dict
mapping `"scale_i"` to the per-scale record list; on `sqlite3.Error` the same
fallback dict comprehension as `get_latest_by_scale` (line 162). The `Option`
in the value type accommodates the `None` values that fallback would build. -/
def get_records_by_scale (db : Option (List Rec)) (limit : Int) :
    Except PyErr (List (String × Option (List Rec))) :=
  match db with
  | some rows =>
    Except.ok ((List.enumFrom 1 scales).map
      (fun p => ("scale_" ++ toString p.1, some (recordsForKey rows p.2 limit))))
  | none => scalesNoneDict (List Rec)

/-- `get_recent_records` (app.py lines 116-135): all rows ordered by
`rowid DESC` with `LIMIT limit`; `[]` on `sqlite3.Error`. -/
def get_recent_records (db : Option (List Rec)) (limit : Int) : List Rec :=
  match db with
  | none => []
  | some rows => sqlLimit limit (List.insertionSort rowidGE rows)

/-! ### Helper lemmas -/

lemma le_foldr_max {xs : List Nat} {x : Nat} (hx : x ∈ xs) : x ≤ xs.foldr max 0 := by
  induction xs with
  | nil => cases hx
  | cons a t ih =>
    rcases List.mem_cons.mp hx with rfl | hmem
    · exact le_max_left _ _
    · exact le_trans (ih hmem) (le_max_right _ _)

lemma foldr_max_mem {xs : List Nat} (h : xs ≠ []) : xs.foldr max 0 ∈ xs := by
  induction xs with
  | nil => exact absurd rfl h
  | cons a t ih =>
    cases t with
    | nil => simp
    | cons b u =>
      have hfold : List.foldr max 0 (a :: b :: u) = max a (List.foldr max 0 (b :: u)) := rfl
      rcases max_choice a (List.foldr max 0 (b :: u)) with hm | hm
      · rw [hfold, hm]; exact List.mem_cons_self a _
      · rw [hfold, hm]; exact List.mem_cons_of_mem a (ih (by simp))

lemma sorted_le_getLast {l : List Rec} (hl : l.Pairwise rowidLE) (h : l ≠ [])
    {x : Rec} (hx : x ∈ l) : x.rowid ≤ (l.getLast h).rowid := by
  induction l with
  | nil => exact absurd rfl h
  | cons a t ih =>
    cases t with
    | nil =>
      rcases List.mem_cons.mp hx with rfl | hmem
      · simp [List.getLast]
      · cases hmem
    | cons b u =>
      have hgl : (a :: b :: u).getLast h = (b :: u).getLast (by simp) := by
        simp [List.getLast]
      rcases List.mem_cons.mp hx with rfl | hmem
      · have := (List.pairwise_cons.mp hl).1 _ (List.getLast_mem (l := b :: u) (by simp))
        exact hgl ▸ this
      · exact hgl ▸ ih (List.pairwise_cons.mp hl).2 (by simp) hmem

/-- The batch returned by a successful poll is always the ordered
filter, whether or not it is empty. -/
lemma check_batch_eq (rows : List Rec) (c : Nat) :
    (checkForNewRecords (some rows) c).1 =
      List.insertionSort rowidLE (List.filter (fun r => decide (c < r.rowid)) rows) := by
  cases h : List.insertionSort rowidLE (List.filter (fun r => decide (c < r.rowid)) rows) with
  | nil => simp [checkForNewRecords, h]
  | cons r rs => simp [checkForNewRecords, h]

lemma check_eq_of_sort_cons {rows : List Rec} {c : Nat} {r : Rec} {rs : List Rec}
    (hs : List.insertionSort rowidLE (List.filter (fun x => decide (c < x.rowid)) rows)
      = r :: rs) :
    checkForNewRecords (some rows) c =
      (r :: rs, ((r :: rs).getLast (List.cons_ne_nil r rs)).rowid) := by
  simp [checkForNewRecords, hs]

lemma check_batch_sorted (rows : List Rec) (c : Nat) :
    ((checkForNewRecords (some rows) c).1).Pairwise rowidLE := by
  rw [check_batch_eq]
  exact List.sorted_insertionSort rowidLE _

lemma check_batch_mem {rows : List Rec} {c : Nat} {r : Rec}
    (hr : r ∈ (checkForNewRecords (some rows) c).1) : r ∈ rows ∧ c < r.rowid := by
  rw [check_batch_eq] at hr
  have h1 := List.mem_insertionSort rowidLE |>.mp hr
  have h2 := List.mem_filter.mp h1
  exact ⟨h2.1, by simpa using h2.2⟩

lemma check_cursor_of_batch_nil {rows : List Rec} {c : Nat}
    (h : (checkForNewRecords (some rows) c).1 = []) :
    (checkForNewRecords (some rows) c).2 = c := by
  rw [check_batch_eq] at h
  simp [checkForNewRecords, h]

/-- Every batch element's rowid is at most the new cursor. -/
lemma check_le_cursor {rows : List Rec} {c : Nat} {r : Rec}
    (hr : r ∈ (checkForNewRecords (some rows) c).1) :
    r.rowid ≤ (checkForNewRecords (some rows) c).2 := by
  cases hs : List.insertionSort rowidLE (List.filter (fun x => decide (c < x.rowid)) rows) with
  | nil =>
    rw [check_batch_eq rows c, hs] at hr
    cases hr
  | cons a rs =>
    have heq := check_eq_of_sort_cons hs
    rw [heq] at hr ⊢
    have hsorted : (a :: rs).Pairwise rowidLE := by
      rw [← hs]; exact List.sorted_insertionSort rowidLE _
    exact sorted_le_getLast hsorted (List.cons_ne_nil a rs) hr

/-- A non-empty batch moves the cursor to one of its own rowids. -/
lemma check_cursor_mem_batch {rows : List Rec} {c : Nat}
    (h : (checkForNewRecords (some rows) c).1 ≠ []) :
    ∃ r ∈ (checkForNewRecords (some rows) c).1,
      (checkForNewRecords (some rows) c).2 = r.rowid := by
  cases hs : List.insertionSort rowidLE (List.filter (fun x => decide (c < x.rowid)) rows) with
  | nil =>
    rw [check_batch_eq rows c, hs] at h
    exact absurd rfl h
  | cons a rs =>
    have heq := check_eq_of_sort_cons hs
    rw [heq]
    exact ⟨(a :: rs).getLast (List.cons_ne_nil a rs),
      List.getLast_mem (List.cons_ne_nil a rs), rfl⟩

/-- The new cursor never moves backwards (the batch only contains rowids
strictly above the old cursor). -/
lemma check_cursor_ge (db : Option (List Rec)) (c : Nat) :
    c ≤ (checkForNewRecords db c).2 := by
  cases db with
  | none => exact le_of_eq rfl
  | some rows =>
    by_cases h : (checkForNewRecords (some rows) c).1 = []
    · exact le_of_eq (check_cursor_of_batch_nil h).symm
    · obtain ⟨r, hr, hcur⟩ := check_cursor_mem_batch h
      rw [hcur]
      exact le_of_lt (check_batch_mem hr).2

/-- Strict rowid order (the append order of an append-only store). -/
def rowidLT (a b : Rec) : Prop := a.rowid < b.rowid

instance : DecidableRel rowidLT := fun a b => Nat.decLt a.rowid b.rowid

/-- On a store whose rows are listed in strictly increasing rowid order, the
`ORDER BY rowid ASC` of the poll query is the identity, so the batch is
exactly the filtered row list. -/
lemma check_batch_of_sorted {rows : List Rec} (hrows : rows.Pairwise rowidLT) (c : Nat) :
    (checkForNewRecords (some rows) c).1 =
      List.filter (fun r => decide (c < r.rowid)) rows := by
  rw [check_batch_eq]
  have hf : (List.filter (fun r => decide (c < r.rowid)) rows).Pairwise rowidLE :=
    (hrows.filter _).imp (fun h => le_of_lt h)
  exact List.Sorted.insertionSort_eq hf

/-- After a poll on a store, every row already in the store has rowid at most
the new cursor: rows above the old cursor are in the batch, the rest are below
the old cursor, which the cursor never drops under. -/
lemma rows_le_cursor {rows : List Rec} {c : Nat} {r : Rec} (hr : r ∈ rows) :
    r.rowid ≤ (checkForNewRecords (some rows) c).2 := by
  by_cases hc : c < r.rowid
  · apply check_le_cursor
    rw [check_batch_eq, List.mem_insertionSort]
    exact List.mem_filter.mpr ⟨hr, by simpa using hc⟩
  · exact le_trans (Nat.le_of_not_lt hc) (check_cursor_ge (some rows) c)

/-- Telescoping step: polling a prefix `rows` of the store from cursor `c` and
then filtering the grown store `rows ++ t` from the new cursor recovers
exactly the rows of `rows ++ t` above `c`: nothing is dropped, nothing is
repeated. -/
lemma check_telescope {rows t : List Rec} {c : Nat}
    (hs : (rows ++ t).Pairwise rowidLT) :
    (checkForNewRecords (some rows) c).1
      ++ List.filter
          (fun r => decide ((checkForNewRecords (some rows) c).2 < r.rowid)) (rows ++ t)
      = List.filter (fun r => decide (c < r.rowid)) (rows ++ t) := by
  obtain ⟨hrows, ht, hcross⟩ := List.pairwise_append.mp hs
  have hb := check_batch_of_sorted hrows c
  have h1 : List.filter
      (fun r => decide ((checkForNewRecords (some rows) c).2 < r.rowid)) rows = [] := by
    rw [List.filter_eq_nil_iff]
    intro a ha
    simpa using Nat.not_lt.mpr (rows_le_cursor ha)
  have h2 : List.filter
      (fun r => decide ((checkForNewRecords (some rows) c).2 < r.rowid)) t
      = List.filter (fun r => decide (c < r.rowid)) t := by
    apply List.filter_congr
    intro y hy
    apply decide_eq_decide.mpr
    constructor
    · intro hlt
      exact lt_of_le_of_lt (check_cursor_ge (some rows) c) hlt
    · intro hlt
      by_cases hbn : (checkForNewRecords (some rows) c).1 = []
      · rw [check_cursor_of_batch_nil hbn]
        exact hlt
      · obtain ⟨r, hr, hcur⟩ := check_cursor_mem_batch hbn
        rw [hcur]
        exact hcross r (check_batch_mem hr).1 y hy
  rw [List.filter_append, List.filter_append, h1, h2, hb, List.nil_append]

/-- Along a chain of append-only snapshots, the first snapshot is a prefix of
the last. -/
lemma chain_append_getLast :
    ∀ (l : List (List Rec)) (x : List Rec),
      List.Chain' (fun a b => ∃ t, b = a ++ t) (x :: l) →
      ∃ t, (x :: l).getLast (List.cons_ne_nil x l) = x ++ t := by
  intro l
  induction l with
  | nil => exact fun x _ => ⟨[], by simp⟩
  | cons y rest ih =>
    intro x hchain
    obtain ⟨hxy, hrest⟩ := List.chain'_cons.mp hchain
    obtain ⟨t1, ht1⟩ := hxy
    obtain ⟨t2, ht2⟩ := ih y hrest
    refine ⟨t1 ++ t2, ?_⟩
    rw [List.getLast_cons (List.cons_ne_nil y rest), ht2, ht1, List.append_assoc]

/-- Over a run on append-only snapshots whose last snapshot is in append
order, the concatenation of all batches is exactly the rows of the final
store above the initial cursor. -/
lemma runMonitor_flatten (cbs : List Callback) :
    ∀ (dbs : List (List Rec)) (c : Nat) (hne : dbs ≠ []),
      List.Chain' (fun a b => ∃ t, b = a ++ t) dbs →
      (dbs.getLast hne).Pairwise rowidLT →
      (batches (runMonitor cbs dbs c)).flatten
        = List.filter (fun r => decide (c < r.rowid)) (dbs.getLast hne) := by
  intro dbs
  induction dbs with
  | nil => intro c hne; exact absurd rfl hne
  | cons db rest ih =>
    intro c hne hchain hsorted
    cases rest with
    | nil =>
      have hdb : ([db].getLast hne) = db := rfl
      rw [hdb] at hsorted
      show (monitorCycle cbs (some db) c).batch ++ [].flatten
        = List.filter (fun r => decide (c < r.rowid)) ([db].getLast hne)
      rw [hdb, List.flatten_nil, List.append_nil]
      exact check_batch_of_sorted hsorted c
    | cons db2 rest2 =>
      obtain ⟨hrel, hchain2⟩ := List.chain'_cons.mp hchain
      have hne2 : db2 :: rest2 ≠ [] := List.cons_ne_nil db2 rest2
      have hgl : (db :: db2 :: rest2).getLast hne = (db2 :: rest2).getLast hne2 :=
        List.getLast_cons hne2
      rw [hgl] at hsorted
      obtain ⟨t, ht⟩ := chain_append_getLast (db2 :: rest2) db hchain
      rw [hgl] at ht
      have ihres := ih ((checkForNewRecords (some db) c).2) hne2 hchain2 hsorted
      show (monitorCycle cbs (some db) c).batch
          ++ (batches (runMonitor cbs (db2 :: rest2)
                (monitorCycle cbs (some db) c).cursor)).flatten
        = List.filter (fun r => decide (c < r.rowid)) ((db :: db2 :: rest2).getLast hne)
      have hbatch : (monitorCycle cbs (some db) c).batch
          = (checkForNewRecords (some db) c).1 := rfl
      have hcur : (monitorCycle cbs (some db) c).cursor
          = (checkForNewRecords (some db) c).2 := rfl
      rw [hgl, hbatch, hcur, ihres, ht]
      exact check_telescope (ht ▸ hsorted)

/-- The dispatch loop invokes every callback, in registration order, with the
same batch. -/
lemma dispatchAll_eq_map (cbs : List Callback) (recs : List Rec) :
    dispatchAll cbs recs = cbs.map (fun cb => (recs, cb recs)) := by
  induction cbs with
  | nil => rfl
  | cons cb rest ih => simp [dispatchAll, ih]

lemma dispatchAll_length (cbs : List Callback) (recs : List Rec) :
    (dispatchAll cbs recs).length = cbs.length := by
  rw [dispatchAll_eq_map, List.length_map]

/-- Every observer receives exactly the non-empty batches of the run, so the
events it receives are the events of the run's batches. -/
lemma deliveredTo_flatten (cbs : List Callback) (j : Nat) (hj : j < cbs.length) :
    ∀ (dbs : List (List Rec)) (c : Nat),
      (deliveredTo (runMonitor cbs dbs c) j).flatten
        = (batches (runMonitor cbs dbs c)).flatten := by
  intro dbs
  induction dbs with
  | nil => intro c; rfl
  | cons db rest ih =>
    intro c
    have hcb : cbs.get? j = some (cbs.get ⟨j, hj⟩) := List.get?_eq_get hj
    by_cases hb : (checkForNewRecords (some db) c).1 = []
    · have hdisp : (monitorCycle cbs (some db) c).dispatch = [] := by
        simp [monitorCycle, hb]
      show (deliveredTo (monitorCycle cbs (some db) c
          :: runMonitor cbs rest (monitorCycle cbs (some db) c).cursor) j).flatten = _
      rw [deliveredTo, List.filterMap_cons, hdisp]
      simp only [List.get?_nil, Option.map_none']
      show (deliveredTo (runMonitor cbs rest (monitorCycle cbs (some db) c).cursor) j).flatten
        = (batches (monitorCycle cbs (some db) c
            :: runMonitor cbs rest (monitorCycle cbs (some db) c).cursor)).flatten
      rw [ih]
      show _ = ((monitorCycle cbs (some db) c).batch
        ++ (batches (runMonitor cbs rest (monitorCycle cbs (some db) c).cursor)).flatten)
      have : (monitorCycle cbs (some db) c).batch = [] := hb
      rw [this, List.nil_append]
    · have hdisp : (monitorCycle cbs (some db) c).dispatch
          = dispatchAll cbs (checkForNewRecords (some db) c).1 := by
        simp [monitorCycle, hb]
      have hget : ((monitorCycle cbs (some db) c).dispatch.get? j).map Prod.fst
          = some (checkForNewRecords (some db) c).1 := by
        rw [hdisp, dispatchAll_eq_map, List.get?_map, hcb]
        rfl
      show (deliveredTo (monitorCycle cbs (some db) c
          :: runMonitor cbs rest (monitorCycle cbs (some db) c).cursor) j).flatten = _
      rw [deliveredTo, List.filterMap_cons, hget]
      show ((checkForNewRecords (some db) c).1
          :: deliveredTo (runMonitor cbs rest (monitorCycle cbs (some db) c).cursor) j).flatten
        = _
      rw [List.flatten_cons, ih]
      rfl

/-- The two error-fallback dict comprehensions in `app.py` (lines 162 and
200) subscript the `scales` list with a string on their first iteration, so
they raise `TypeError` instead of producing a dict. -/
lemma scalesNoneDict_raises (α : Type) :
    scalesNoneDict α = Except.error PyErr.typeError := rfl

/-! ### Claim theorems -/

/-- C1: for every device key, `latestForKey` (the per-key query of
`get_latest_by_scale`) returns `none` exactly when the device has no events,
and otherwise returns an event of that device that sorts strictly before
every other event of the device under the lexicographic order (priority
class ascending — `Served`/`Refilled` first — then rowid descending). -/
theorem latestForKey_selects_priority_then_sequence (rows : List Rec) (k : String)
    (hnodup : (rows.map Rec.rowid).Nodup) :
    (List.filter (fun r => decide (r.number = k)) rows = [] ↔ latestForKey rows k = none) ∧
    (∀ r, latestForKey rows k = some r →
      r ∈ rows ∧ r.number = k ∧
      ∀ s ∈ rows, s.number = k → s ≠ r →
        priorityNum r < priorityNum s ∨
          (priorityNum r = priorityNum s ∧ s.rowid < r.rowid)) := by
  have hperm := List.perm_insertionSort latestLE
    (List.filter (fun r => decide (r.number = k)) rows)
  constructor
  · constructor
    · intro hnil
      unfold latestForKey
      rw [hnil]
      rfl
    · intro hnone
      unfold latestForKey at hnone
      have hsortnil := List.head?_eq_none_iff.mp hnone
      have hp := hperm
      rw [hsortnil] at hp
      exact hp.symm.eq_nil
  · intro r hr
    unfold latestForKey at hr
    cases hs : List.insertionSort latestLE
        (List.filter (fun x => decide (x.number = k)) rows) with
    | nil => rw [hs] at hr; cases hr
    | cons a tl =>
      rw [hs] at hr
      have hra : a = r := by simpa using hr
      subst hra
      have hamem : a ∈ List.filter (fun x => decide (x.number = k)) rows := by
        have hmem2 : a ∈ List.insertionSort latestLE
            (List.filter (fun x => decide (x.number = k)) rows) := by
          rw [hs]; exact List.mem_cons_self a tl
        exact (List.mem_insertionSort latestLE).mp hmem2
      have haf := List.mem_filter.mp hamem
      refine ⟨haf.1, by simpa using haf.2, ?_⟩
      intro s hs1 hs2 hs3
      have hsmem : s ∈ List.insertionSort latestLE
          (List.filter (fun x => decide (x.number = k)) rows) := by
        rw [List.mem_insertionSort]
        exact List.mem_filter.mpr ⟨hs1, by simpa using hs2⟩
      rw [hs] at hsmem
      have hstl : s ∈ tl := by
        rcases List.mem_cons.mp hsmem with h | h
        · exact absurd h hs3
        · exact h
      have hsorted : (a :: tl).Pairwise latestLE := by
        rw [← hs]
        exact List.sorted_insertionSort latestLE _
      have hle : latestLE a s := (List.pairwise_cons.mp hsorted).1 s hstl
      have hrowne : s.rowid ≠ a.rowid := by
        intro heq
        exact hs3 (List.inj_on_of_nodup_map hnodup hs1 haf.1 heq)
      rcases hle with h | ⟨he, hle2⟩
      · exact Or.inl h
      · exact Or.inr ⟨he, lt_of_le_of_ne hle2 hrowne⟩

/-- Fixture records used by the concrete witnesses below. -/
def wServedA : Rec := ⟨3, "LibraV0", "A", "t3", "Served", 7, "Kitchen", "Flour", false⟩

def wHeartbeatA : Rec := ⟨5, "LibraV0", "A", "t5", "Heartbeat", 10, "Kitchen", "Flour", false⟩

def wHeartbeatA2 : Rec := ⟨8, "LibraV0", "A", "t8", "Heartbeat", 11, "Kitchen", "Flour", true⟩

def wStore : List Rec := [wServedA, wHeartbeatA]

/-- Witness for C1 on the spec's own example: device `"A"` has a `Served`
event at sequence 3 and a `Heartbeat` at sequence 5; the resolver returns the
sequence-3 `Served` event, and a device `"C"` with no events resolves to
`none`. -/
theorem latestForKey_selects_priority_then_sequence_witness :
    (wStore.map Rec.rowid).Nodup ∧
    ((List.filter (fun r => decide (r.number = "A")) wStore = []
        ↔ latestForKey wStore "A" = none) ∧
      (∀ r, latestForKey wStore "A" = some r →
        r ∈ wStore ∧ r.number = "A" ∧
        ∀ s ∈ wStore, s.number = "A" → s ≠ r →
          priorityNum r < priorityNum s ∨
            (priorityNum r = priorityNum s ∧ s.rowid < r.rowid))) ∧
    latestForKey wStore "A" = some wServedA ∧
    latestForKey wStore "C" = none :=
  ⟨by decide,
   latestForKey_selects_priority_then_sequence wStore "A" (by decide),
   by decide, by decide⟩

/-- C3 (evaluation at the failing input): with the store unreachable, the
batch resolver does not resolve any key — the bare `except:` fallback of
`get_latest_by_scale` itself raises `TypeError`, failing the whole batch. -/
theorem get_latest_by_scale_failure_fails_whole_batch :
    get_latest_by_scale none = Except.error PyErr.typeError ∧
    ∀ m : List (String × Option Rec), get_latest_by_scale none ≠ Except.ok m := by
  refine ⟨scalesNoneDict_raises Rec, ?_⟩
  intro m hm
  rw [show get_latest_by_scale none = scalesNoneDict Rec from rfl,
    scalesNoneDict_raises] at hm
  cases hm

/-- C4: when the store query of a poll cycle fails, the poll returns an empty
batch, leaves the cursor exactly as it was, and invokes no observer. -/
theorem poll_failure_leaves_cursor_and_skips_observers (c : Nat) (cbs : List Callback) :
    checkForNewRecords none c = ([], c) ∧
    (monitorCycle cbs none c).batch = [] ∧
    (monitorCycle cbs none c).cursor = c ∧
    (monitorCycle cbs none c).dispatch = [] :=
  ⟨rfl, rfl, rfl, rfl⟩

/-- C6: `_get_last_rowid` returns the store's maximum rowid, `0` on an empty
store, and `0` (without raising) on an unreachable store; a first poll from
that cursor only ever returns events with strictly larger rowid, so no event
already in the store is replayed. -/
theorem initialize_cursor_is_max_and_no_replay (rows rows2 : List Rec) :
    getLastRowid none = 0 ∧
    getLastRowid (some []) = 0 ∧
    (∀ r ∈ rows, r.rowid ≤ getLastRowid (some rows)) ∧
    (rows ≠ [] → ∃ r ∈ rows, r.rowid = getLastRowid (some rows)) ∧
    (∀ r ∈ (checkForNewRecords (some rows2) (getLastRowid (some rows))).1,
      getLastRowid (some rows) < r.rowid) ∧
    (∀ r ∈ rows, r ∉ (checkForNewRecords (some rows2) (getLastRowid (some rows))).1) := by
  refine ⟨rfl, rfl, ?_, ?_, ?_, ?_⟩
  · intro r hr
    exact le_foldr_max (List.mem_map_of_mem Rec.rowid hr)
  · intro hne
    have hmapne : rows.map Rec.rowid ≠ [] := by
      simpa using hne
    have hmem := foldr_max_mem hmapne
    obtain ⟨r, hr, hr2⟩ := List.mem_map.mp hmem
    exact ⟨r, hr, hr2⟩
  · intro r hr
    exact (check_batch_mem hr).2
  · intro r hr hmem
    have h1 : getLastRowid (some rows) < r.rowid := (check_batch_mem hmem).2
    have h2 : r.rowid ≤ getLastRowid (some rows) :=
      le_foldr_max (List.mem_map_of_mem Rec.rowid hr)
    exact absurd h1 (Nat.not_lt.mpr h2)

/-- Witness for C6: a store with maximum rowid 5 initializes the cursor to 5,
and a first poll on the grown store returns only the new rowid-8 event. -/
theorem initialize_cursor_is_max_and_no_replay_witness :
    (getLastRowid none = 0 ∧
      getLastRowid (some []) = 0 ∧
      (∀ r ∈ wStore, r.rowid ≤ getLastRowid (some wStore)) ∧
      (wStore ≠ [] → ∃ r ∈ wStore, r.rowid = getLastRowid (some wStore)) ∧
      (∀ r ∈ (checkForNewRecords (some (wStore ++ [wHeartbeatA2]))
          (getLastRowid (some wStore))).1,
        getLastRowid (some wStore) < r.rowid) ∧
      (∀ r ∈ wStore, r ∉ (checkForNewRecords (some (wStore ++ [wHeartbeatA2]))
          (getLastRowid (some wStore))).1)) ∧
    getLastRowid (some wStore) = 5 ∧
    (checkForNewRecords (some (wStore ++ [wHeartbeatA2]))
        (getLastRowid (some wStore))).1 = [wHeartbeatA2] :=
  ⟨initialize_cursor_is_max_and_no_replay wStore (wStore ++ [wHeartbeatA2]),
   by decide, by decide⟩

/-- C7: the cursor never decreases across a poll step: an empty batch or a
failed query leaves it unchanged, and a non-empty batch moves it strictly
upward, to the maximum rowid of the batch. -/
theorem cursor_monotone (db : Option (List Rec)) (c : Nat) :
    c ≤ (checkForNewRecords db c).2 ∧
    ((checkForNewRecords db c).1 = [] → (checkForNewRecords db c).2 = c) ∧
    ((checkForNewRecords db c).1 ≠ [] →
      c < (checkForNewRecords db c).2 ∧
      (∀ r ∈ (checkForNewRecords db c).1, r.rowid ≤ (checkForNewRecords db c).2) ∧
      (∃ r ∈ (checkForNewRecords db c).1, r.rowid = (checkForNewRecords db c).2)) := by
  refine ⟨check_cursor_ge db c, ?_, ?_⟩
  · intro h
    cases db with
    | none => rfl
    | some rows => exact check_cursor_of_batch_nil h
  · intro h
    cases db with
    | none => exact absurd rfl h
    | some rows =>
      obtain ⟨r, hr, hcur⟩ := check_cursor_mem_batch h
      refine ⟨?_, fun s hs => check_le_cursor hs, r, hr, hcur.symm⟩
      rw [hcur]
      exact (check_batch_mem hr).2

/-- Witness for C7: polling the two-event store from cursor 0 fetches both
events and advances the cursor to 5, the batch maximum. -/
theorem cursor_monotone_witness :
    (0 ≤ (checkForNewRecords (some wStore) 0).2 ∧
      ((checkForNewRecords (some wStore) 0).1 = []
        → (checkForNewRecords (some wStore) 0).2 = 0) ∧
      ((checkForNewRecords (some wStore) 0).1 ≠ [] →
        0 < (checkForNewRecords (some wStore) 0).2 ∧
        (∀ r ∈ (checkForNewRecords (some wStore) 0).1,
          r.rowid ≤ (checkForNewRecords (some wStore) 0).2) ∧
        (∃ r ∈ (checkForNewRecords (some wStore) 0).1,
          r.rowid = (checkForNewRecords (some wStore) 0).2))) ∧
    (checkForNewRecords (some wStore) 0).2 = 5 :=
  ⟨cursor_monotone (some wStore) 0, by decide⟩

/-- C9: a negative limit is passed through to the SQL `LIMIT` clause, which
SQLite treats as "no limit": `get_recent_records` then returns every event in
the store, ordered by rowid descending. -/
theorem get_recent_records_negative_limit (rows : List Rec) (L : Int) (hL : L < 0) :
    get_recent_records (some rows) L = List.insertionSort rowidGE rows ∧
    (get_recent_records (some rows) L).Perm rows ∧
    (get_recent_records (some rows) L).Pairwise rowidGE := by
  have h : get_recent_records (some rows) L = List.insertionSort rowidGE rows := by
    simp [get_recent_records, sqlLimit, hL]
  refine ⟨h, ?_, ?_⟩
  · rw [h]; exact List.perm_insertionSort rowidGE rows
  · rw [h]; exact List.sorted_insertionSort rowidGE rows

/-- Witness for C9: `limit = -1` on a two-event store returns both events,
highest rowid first. -/
theorem get_recent_records_negative_limit_witness :
    ((-1 : Int) < 0) ∧
    (get_recent_records (some wStore) (-1) = List.insertionSort rowidGE wStore ∧
      (get_recent_records (some wStore) (-1)).Perm wStore ∧
      (get_recent_records (some wStore) (-1)).Pairwise rowidGE) ∧
    get_recent_records (some wStore) (-1) = [wHeartbeatA, wServedA] :=
  ⟨by decide, get_recent_records_negative_limit wStore (-1) (by decide), by decide⟩

/-- C10: the error fallback shared by `get_records_by_scale` (line 162) and
`get_latest_by_scale` (line 200) indexes the `scales` list with its own
string elements, so on a store failure both operations raise `TypeError`
instead of returning a per-scale mapping of `None` values. -/
theorem scale_query_fallbacks_raise_type_error :
    (∀ L : Int, get_records_by_scale none L = Except.error PyErr.typeError) ∧
    get_latest_by_scale none = Except.error PyErr.typeError :=
  ⟨fun _ => scalesNoneDict_raises (List Rec), scalesNoneDict_raises Rec⟩

/-- C8: with a non-negative limit `L` on a store of `N` events with distinct
rowids, `get_recent_records` returns exactly the `min(L, N)` events of
highest rowid, ordered by rowid descending: the result has that length, is
descending, draws from the store, and every event left out has a strictly
smaller rowid than every event returned. -/
theorem get_recent_records_top_of_store (rows : List Rec) (L : Int) (hL : 0 ≤ L)
    (hnodup : (rows.map Rec.rowid).Nodup) :
    (get_recent_records (some rows) L).length = min L.toNat rows.length ∧
    (get_recent_records (some rows) L).Pairwise rowidGE ∧
    (∀ r ∈ get_recent_records (some rows) L, r ∈ rows) ∧
    (∀ a ∈ get_recent_records (some rows) L, ∀ b ∈ rows,
      b ∉ get_recent_records (some rows) L → b.rowid < a.rowid) := by
  have hnl : ¬ L < 0 := not_lt.mpr hL
  have hres : get_recent_records (some rows) L
      = (List.insertionSort rowidGE rows).take L.toNat := by
    simp [get_recent_records, sqlLimit, hnl]
  have hperm := List.perm_insertionSort rowidGE rows
  have hsorted : (List.insertionSort rowidGE rows).Pairwise rowidGE :=
    List.sorted_insertionSort rowidGE rows
  refine ⟨?_, ?_, ?_, ?_⟩
  · rw [hres, List.length_take, hperm.length_eq]
  · rw [hres]
    exact hsorted.sublist (List.take_sublist _ _)
  · intro r hr
    rw [hres] at hr
    exact hperm.mem_iff.mp (List.mem_of_mem_take hr)
  · intro a ha b hb hbn
    rw [hres] at ha hbn
    have hbs : b ∈ List.insertionSort rowidGE rows := hperm.mem_iff.mpr hb
    have hbdrop : b ∈ (List.insertionSort rowidGE rows).drop L.toNat := by
      have hsplit : b ∈ (List.insertionSort rowidGE rows).take L.toNat
          ++ (List.insertionSort rowidGE rows).drop L.toNat := by
        rw [List.take_append_drop]
        exact hbs
      rcases List.mem_append.mp hsplit with h | h
      · exact absurd h hbn
      · exact h
    have hge : rowidGE a b := List.Sorted.rel_of_mem_take_of_mem_drop hsorted ha hbdrop
    have hne : b.rowid ≠ a.rowid := by
      intro he
      have hba : b = a :=
        List.inj_on_of_nodup_map hnodup hb (hperm.mem_iff.mp (List.mem_of_mem_take ha)) he
      rw [hba] at hbn
      exact hbn ha
    exact lt_of_le_of_ne hge hne

/-- The dispatch of a cycle whose batch is non-empty: one entry per
registered callback, in registration order, each invoked with the batch. -/
lemma monitorCycle_dispatch_of_ne_nil (cbs : List Callback) (db : Option (List Rec))
    (c : Nat) (hne : (checkForNewRecords db c).1 ≠ []) :
    (monitorCycle cbs db c).dispatch
      = cbs.map (fun cb => ((checkForNewRecords db c).1, cb (checkForNewRecords db c).1)) := by
  have hemp : ((checkForNewRecords db c).1).isEmpty = false := by
    simpa using hne
  simp only [monitorCycle, hemp, Bool.false_eq_true, if_false]
  exact dispatchAll_eq_map cbs (checkForNewRecords db c).1

/-- C5: when an observer raises during dispatch of a non-empty batch, every
observer — those registered before it, itself, and those registered after it
— still has exactly one dispatch entry for that cycle, in registration order
and carrying the same batch; the cursor is what the poll step alone
computed; and a following cycle again dispatches its own batch to every
observer, including the one that failed. -/
theorem observer_failure_isolated
    (pre post : List Callback) (bad : Callback) (e : String)
    (db db2 : Option (List Rec)) (c : Nat)
    (hfail : bad (checkForNewRecords db c).1 = Except.error e)
    (hne : (checkForNewRecords db c).1 ≠ []) :
    ((monitorCycle (pre ++ bad :: post) db c).dispatch
      = (pre ++ bad :: post).map
          (fun cb => ((checkForNewRecords db c).1, cb (checkForNewRecords db c).1))) ∧
    ((monitorCycle (pre ++ bad :: post) db c).dispatch.get? pre.length
      = some ((checkForNewRecords db c).1, Except.error e)) ∧
    (∀ j, j < (pre ++ bad :: post).length →
      ∃ out, (monitorCycle (pre ++ bad :: post) db c).dispatch.get? j
        = some ((checkForNewRecords db c).1, out)) ∧
    ((monitorCycle (pre ++ bad :: post) db c).cursor = (checkForNewRecords db c).2) ∧
    ((checkForNewRecords db2 (checkForNewRecords db c).2).1 ≠ [] →
      (monitorCycle (pre ++ bad :: post) db2 (checkForNewRecords db c).2).dispatch
        = (pre ++ bad :: post).map
            (fun cb => ((checkForNewRecords db2 (checkForNewRecords db c).2).1,
              cb (checkForNewRecords db2 (checkForNewRecords db c).2).1))) := by
  have hdisp := monitorCycle_dispatch_of_ne_nil (pre ++ bad :: post) db c hne
  refine ⟨hdisp, ?_, ?_, rfl, ?_⟩
  · rw [hdisp, List.map_append]
    rw [List.get?_append_right (by simp)]
    simp [hfail]
  · intro j hj
    refine ⟨(pre ++ bad :: post).get ⟨j, hj⟩ (checkForNewRecords db c).1, ?_⟩
    rw [hdisp, List.get?_map, List.get?_eq_get hj]
    rfl
  · intro hne2
    exact monitorCycle_dispatch_of_ne_nil (pre ++ bad :: post) db2
      (checkForNewRecords db c).2 hne2

/-- Callback fixtures for the C5 witness: one that always succeeds and one
that always raises. -/
def okCb : Callback := fun _ => Except.ok ()

def badCb : Callback := fun _ => Except.error "boom"

/-- Witness for C5: with observers `[badCb, okCb]` and the two-event store,
the failing first observer does not prevent the second from receiving the
batch, the cursor still advances to 5, and the next cycle (store grown by the
rowid-8 event) is dispatched to both observers again. -/
theorem observer_failure_isolated_witness :
    (badCb (checkForNewRecords (some wStore) 0).1 = Except.error "boom") ∧
    ((checkForNewRecords (some wStore) 0).1 ≠ []) ∧
    (((monitorCycle (([] : List Callback) ++ badCb :: [okCb]) (some wStore) 0).dispatch
      = (([] : List Callback) ++ badCb :: [okCb]).map
          (fun cb => ((checkForNewRecords (some wStore) 0).1,
            cb (checkForNewRecords (some wStore) 0).1))) ∧
    ((monitorCycle (([] : List Callback) ++ badCb :: [okCb]) (some wStore) 0).dispatch.get?
        (List.length ([] : List Callback))
      = some ((checkForNewRecords (some wStore) 0).1, Except.error "boom")) ∧
    (∀ j, j < (([] : List Callback) ++ badCb :: [okCb]).length →
      ∃ out, (monitorCycle (([] : List Callback) ++ badCb :: [okCb]) (some wStore) 0).dispatch.get? j
        = some ((checkForNewRecords (some wStore) 0).1, out)) ∧
    ((monitorCycle (([] : List Callback) ++ badCb :: [okCb]) (some wStore) 0).cursor
      = (checkForNewRecords (some wStore) 0).2) ∧
    ((checkForNewRecords (some (wStore ++ [wHeartbeatA2]))
        (checkForNewRecords (some wStore) 0).2).1 ≠ [] →
      (monitorCycle (([] : List Callback) ++ badCb :: [okCb]) (some (wStore ++ [wHeartbeatA2]))
          (checkForNewRecords (some wStore) 0).2).dispatch
        = (([] : List Callback) ++ badCb :: [okCb]).map
            (fun cb => ((checkForNewRecords (some (wStore ++ [wHeartbeatA2]))
                (checkForNewRecords (some wStore) 0).2).1,
              cb (checkForNewRecords (some (wStore ++ [wHeartbeatA2]))
                (checkForNewRecords (some wStore) 0).2).1)))) :=
  ⟨rfl, by decide,
   observer_failure_isolated [] [okCb] badCb "boom" (some wStore)
     (some (wStore ++ [wHeartbeatA2])) 0 rfl (by decide)⟩

/-- Witness for C8: `limit = 1` on the two-event store returns exactly the
single highest-rowid event, the rowid-5 heartbeat. -/
theorem get_recent_records_top_of_store_witness :
    ((0 : Int) ≤ 1) ∧ (wStore.map Rec.rowid).Nodup ∧
    ((get_recent_records (some wStore) 1).length = min (1 : Int).toNat wStore.length ∧
      (get_recent_records (some wStore) 1).Pairwise rowidGE ∧
      (∀ r ∈ get_recent_records (some wStore) 1, r ∈ wStore) ∧
      (∀ a ∈ get_recent_records (some wStore) 1, ∀ b ∈ wStore,
        b ∉ get_recent_records (some wStore) 1 → b.rowid < a.rowid)) ∧
    get_recent_records (some wStore) 1 = [wHeartbeatA] :=
  ⟨by decide, by decide,
   get_recent_records_top_of_store wStore 1 (by decide) (by decide), by decide⟩

/-- C2: over any run of poll cycles on an append-only store (each snapshot
extends the previous one; the final snapshot lists its rows in strictly
increasing rowid order), the batches concatenate to exactly the rows with
rowid strictly above the initial cursor, in strictly increasing rowid order —
so each such event appears in exactly one batch, batches are disjoint and
consecutive — and every registered observer receives exactly those batches'
events. -/
theorem monitor_delivers_each_event_once_in_order
    (cbs : List Callback) (dbs : List (List Rec)) (c0 : Nat) (hne : dbs ≠ [])
    (hchain : List.Chain' (fun a b => ∃ t, b = a ++ t) dbs)
    (hsorted : (dbs.getLast hne).Pairwise rowidLT) :
    (batches (runMonitor cbs dbs c0)).flatten
        = List.filter (fun r => decide (c0 < r.rowid)) (dbs.getLast hne) ∧
    ((batches (runMonitor cbs dbs c0)).flatten).Pairwise rowidLT ∧
    (∀ j, j < cbs.length →
      (deliveredTo (runMonitor cbs dbs c0) j).flatten
        = (batches (runMonitor cbs dbs c0)).flatten) := by
  have hmain := runMonitor_flatten cbs dbs c0 hne hchain hsorted
  refine ⟨hmain, ?_, ?_⟩
  · rw [hmain]
    exact hsorted.sublist (List.filter_sublist _)
  · intro j hj
    exact deliveredTo_flatten cbs j hj dbs c0

/-- Witness for C2: two cycles — the store holds the rowid-3 event, then
additionally the rowid-5 event — deliver both events exactly once each, in
rowid order, to the single registered observer. -/
theorem monitor_delivers_each_event_once_in_order_witness :
    ([[wServedA], [wServedA, wHeartbeatA]] ≠ ([] : List (List Rec))) ∧
    List.Chain' (fun a b => ∃ t, b = a ++ t) [[wServedA], [wServedA, wHeartbeatA]] ∧
    ([[wServedA], [wServedA, wHeartbeatA]].getLast (by decide)).Pairwise rowidLT ∧
    ((batches (runMonitor [okCb] [[wServedA], [wServedA, wHeartbeatA]] 0)).flatten
        = List.filter (fun r => decide (0 < r.rowid))
            ([[wServedA], [wServedA, wHeartbeatA]].getLast (by decide)) ∧
      ((batches (runMonitor [okCb]
          [[wServedA], [wServedA, wHeartbeatA]] 0)).flatten).Pairwise rowidLT ∧
      (∀ j, j < [okCb].length →
        (deliveredTo (runMonitor [okCb] [[wServedA], [wServedA, wHeartbeatA]] 0) j).flatten
          = (batches (runMonitor [okCb] [[wServedA], [wServedA, wHeartbeatA]] 0)).flatten)) :=
  ⟨by decide,
   List.chain'_cons.mpr ⟨⟨[wHeartbeatA], rfl⟩, List.chain'_singleton _⟩,
   by decide,
   monitor_delivers_each_event_once_in_order [okCb]
     [[wServedA], [wServedA, wHeartbeatA]] 0 (by decide)
     (List.chain'_cons.mpr ⟨⟨[wHeartbeatA], rfl⟩, List.chain'_singleton _⟩)
     (by decide)⟩
